import Mathlib

/-!
# Verification of the Vercel deploy action (`src/index.ts`)

Shallow embedding of the GitHub Action in `src/index.ts`:
the action resolves a branch name and trigger message from the GitHub
event context, shells out to the Vercel CLI to deploy, scrapes the
`vercel inspect` diagnostic output for the deployment id and project
name, fetches deployment metadata over HTTP, and publishes or updates a
status comment.

The embedding models the ambient GitHub context, the action inputs, and
the environment's responses (subprocess output, HTTP responses, comment
lists) as explicit values, and `mainRun` produces the trace of observable
effects together with the run outcome (success, or the thrown error
message).
-/

namespace VercelDeploy

/-- JavaScript-style truthiness coercion of a possibly-undefined string
into the text produced by template-literal interpolation: `undefined`
interpolates as the string `"undefined"`. -/
def jsShow : Option String → String
  | none => "undefined"
  | some s => s

/-- `x || null` interpolated into a template literal, for `x` a
possibly-undefined string field: a falsy value (undefined or the empty
string) interpolates as `"null"`. Embeds line 65 of `src/index.ts`
(`res.inspectorUrl || null`). -/
def jsOrNull : Option String → String
  | none => "null"
  | some s => if s = "" then "null" else s

/-- JavaScript falsiness of a nullable string (`!x` is true for `null`
and for the empty string). Embeds the `!projectName` / `!deploymentId`
guards at lines 150 and 153. -/
def jsFalsy : Option String → Bool
  | none => true
  | some s => s = ""

/-- Boolean prefix test on character lists (structural recursion, so it
reduces definitionally). -/
def isPfx : List Char → List Char → Bool
  | [], _ => true
  | _ :: _, [] => false
  | a :: as, b :: bs => a = b && isPfx as bs

/-- Boolean infix test on character lists: `needle` occurs contiguously
in `hay`. -/
def isSubstr (needle : List Char) : List Char → Bool
  | [] => isPfx needle []
  | c :: rest => isPfx needle (c :: rest) || isSubstr needle rest

/-- JavaScript `hay.includes(needle)`: substring containment. -/
def strIncludes (hay needle : String) : Bool :=
  isSubstr needle.data hay.data

/-- Remove the first occurrence of `pat` from a character list, leaving
the list unchanged when `pat` does not occur. Embeds the semantics of
JavaScript `String.prototype.replace` with a string pattern and an empty
replacement. -/
def replaceFirstList (pat : List Char) : List Char → List Char
  | [] => []
  | c :: rest =>
    if isPfx pat (c :: rest) then (c :: rest).drop pat.length
    else c :: replaceFirstList pat rest

/-- JavaScript `s.replace(pat, "")`: remove the first occurrence of
`pat` in `s` (not only a leading one). Embeds line 79
(`context.ref.replace("refs/heads/", "")`). -/
def replaceFirstStr (s pat : String) : String :=
  ⟨replaceFirstList pat.data s.data⟩

/-- Whitespace characters for the `\s` regex class (ASCII fragment). -/
def isWsChar (c : Char) : Bool :=
  c = ' ' || c = '\t' || c = '\r' || c = '\x0b' || c = '\x0c'

/-- Match one line against the regex `^\s+<key>\s+(.+)$` and return the
capture group, `none` when the line does not match. Follows JavaScript
regex semantics: `\s+` runs are contiguous whitespace, the trailing
`\s+` is greedy but backtracks so that `(.+)` captures at least one
character. Embeds the per-line behaviour of the patterns at lines 34-35
of `src/index.ts`. -/
def lineCapture (key : String) (line : String) : Option String :=
  let w := line.data.takeWhile isWsChar
  if w.length = 0 then none
  else
    let rest := line.data.drop w.length
    if isPfx key.data rest then
      let s := rest.drop key.data.length
      let k := (s.takeWhile isWsChar).length
      if k = 0 then none
      else if k < s.length then some ⟨s.drop k⟩
      else if 2 ≤ s.length then some ⟨s.drop (s.length - 1)⟩
      else none
    else none

/-- Split a character list at newline characters (the segments between
the `'\n'` line terminators, in order). -/
def splitLines : List Char → List (List Char)
  | [] => [[]]
  | c :: rest =>
    if c = '\n' then [] :: splitLines rest
    else
      match splitLines rest with
      | l :: ls => (c :: l) :: ls
      | [] => [[c]]

/-- The lines of a string, as delimited by `'\n'`: the positions where
the multiline anchors `^`/`$` of a JavaScript regex match. -/
def linesOf (text : String) : List String :=
  (splitLines text.data).map List.asString

/-- First match of `^\s+<key>\s+(.+)$` in multiline mode against `text`:
the capture of the first line that matches, `none` when no line does.
Embeds `myError.match(/^\s+id\s+(.+)$/m)` and the `name` analogue at
lines 34-35. -/
def matchFirst (key : String) (text : String) : Option String :=
  (linesOf text).findSome? (lineCapture key)

/-- Result of `vercelInspect`: the scraped deployment id and project
name, each `null` when its pattern found no match (lines 36-39). -/
structure InspectResult where
  id : Option String
  name : Option String
deriving DecidableEq

/-- Pure content of `vercelInspect` (lines 13-40): scrape the captured
stderr of `npx vercel inspect <url> -t <token>` with the two
line-anchored patterns. -/
def vercelInspectParse (stderrText : String) : InspectResult :=
  { id := matchFirst "id" stderrText
    name := matchFirst "name" stderrText }

/-- `pull_request` payload fields the action reads. `title` is optional
to model a payload without a title (JavaScript `undefined`). -/
structure PullRequestPayload where
  headRef : String
  headSha : String
  title : Option String
deriving DecidableEq

/-- `head_commit` payload fields the action reads. -/
structure HeadCommit where
  message : Option String
deriving DecidableEq

/-- The ambient GitHub context (`github.context`) as read by the action.
`ref` models `context.ref` with the empty string standing for an absent
(falsy) ref. -/
structure Context where
  payload_pull_request : Option PullRequestPayload
  payload_head_commit : Option HeadCommit
  ref : String
  sha : String
  actor : String
  repoOwner : String
  repoRepo : String
  repoId : Int
  eventName : String
  issueNumber : Int
deriving DecidableEq

/-- The action's configuration inputs (lines 6-10). -/
structure Inputs where
  githubToken : String
  vercelToken : String
  vercelOrgId : String
  vercelProjectId : String
  isProductionInput : String
deriving DecidableEq

/-- `isProduction` (line 10): the `is-production` input compared with
the literal string `"true"`. -/
def Inputs.isProduction (inp : Inputs) : Bool :=
  inp.isProductionInput = "true"

/-- An issue comment as returned by `octokit.rest.issues.listComments`:
`body` is optional in the REST schema (`v.body?.includes` at line 165). -/
structure IssueComment where
  id : Nat
  body : Option String
deriving DecidableEq

/-- A commit comment as returned by
`octokit.rest.repos.listCommentsForCommit`: `body` is always present
(`v.body.includes` at line 193). -/
structure CommitComment where
  id : Nat
  body : String
deriving DecidableEq

/-- The environment's responses to the action's side effects: captured
subprocess streams, the deployment-status HTTP response's
`inspectorUrl` field, and the comment lists returned by the GitHub
API. -/
structure Env where
  deployStdout : String
  deployStderr : String
  inspectStdout : String
  inspectStderr : String
  inspectorUrl : Option String
  issueComments : List IssueComment
  commitComments : List CommitComment
deriving DecidableEq

/-- Observable effects of a run, in program order. -/
inductive Effect where
  | exportVar (name value : String)
  | execCmd (cmd : String) (args : List String)
  | logInfo (msg : String)
  | setOutput (name value : String)
  | fetchUrl (url : String)
  | listIssueComments (issueNumber : Int)
  | createIssueComment (issueNumber : Int) (body : String)
  | updateIssueComment (commentId : Nat) (body : String)
  | listCommitComments (sha : String)
  | createCommitComment (sha : String) (body : String)
  | updateCommitComment (commentId : Nat) (body : String)
deriving DecidableEq

deriving instance DecidableEq for Except

/-- Outcome and effect trace of one run of the action, after the
top-level `main().catch(...)` wrapper: `.error msg` means the run was
marked failed with `msg` via `core.setFailed`. -/
structure RunResult where
  trace : List Effect
  outcome : Except String Unit
deriving DecidableEq

/-- Branch-name resolution (lines 75-82): the PR head ref when a
pull-request payload is present; else, for a truthy `context.ref`, the
ref with the first occurrence of `"refs/heads/"` removed; else the run
throws (`none`). -/
def branchNameOf (ctx : Context) : Option String :=
  match ctx.payload_pull_request with
  | some pr => some pr.headRef
  | none => if ctx.ref ≠ "" then some (replaceFirstStr ctx.ref "refs/heads/") else none

/-- Trigger-message resolution (lines 84-91): the PR title field when a
pull-request payload is present (possibly undefined), else the head
commit's message field when a head commit is present, else
`"Deploy <sha>"`. `none` models the JavaScript value `undefined`. -/
def messageOf (ctx : Context) : Option String :=
  match ctx.payload_pull_request with
  | some pr => pr.title
  | none =>
    match ctx.payload_head_commit with
    | some hc => hc.message
    | none => some ("Deploy " ++ ctx.sha)

/-- Argument list of the deploy invocation (lines 108-137). -/
def deployArgs (inp : Inputs) (ctx : Context) (branchName : String)
    (message : Option String) : List String :=
  ["vercel"]
    ++ (if inp.isProduction then ["--prod"] else [])
    ++ ["-t", inp.vercelToken,
        "-m", "githubCommitAuthorName=" ++ ctx.actor,
        "-m", "githubCommitMessage=" ++ jsShow message,
        "-m", "githubCommitOrg=" ++ ctx.repoOwner,
        "-m", "githubCommitRef=" ++ branchName,
        "-m", "githubCommitRepo=" ++ ctx.repoRepo,
        "-m", "githubCommitRepoId=" ++ toString ctx.repoId,
        "-m", "githubCommitSha=" ++ ctx.sha,
        "-m", "githubDeployment=1",
        "-m", "githubOrg=" ++ ctx.repoOwner,
        "-m", "githubRepo=" ++ ctx.repoRepo,
        "-m", "githubRepoId=" ++ toString ctx.repoId,
        "-m", "githubCommitAuthorLogin=" ++ ctx.actor]

/-- The title marker (line 157):
`` `Deployment preview for _${projectName}_.` ``. -/
def titleOf (projectName : String) : String :=
  "Deployment preview for _" ++ projectName ++ "_."

/-- The deployment-status endpoint queried by `buildComment` (line 52). -/
def apiUrl (deploymentId : String) : String :=
  "https://api.vercel.com/v13/deployments/" ++ deploymentId

/-- The SHA used in the comment body (lines 60-62): PR head SHA when a
pull-request payload exists, else the context SHA. -/
def commentSha (ctx : Context) : String :=
  match ctx.payload_pull_request with
  | some pr => pr.headSha
  | none => ctx.sha

/-- The comment body template (lines 63-68), with the `inspectorUrl ||
null` interpolation already performed by the caller. -/
def buildCommentBody (titleText inspectorText deploymentUrl sha : String) : String :=
  titleText ++ "\n\n🔍 Inspect: " ++ inspectorText ++ "\n✅ Preview: "
    ++ deploymentUrl ++ "\n\nBuilt with commit " ++ sha ++ "."

/-- The predicate of the `find` at line 165: the comment's body exists
and contains the title marker. -/
def issueCommentMatches (titleText : String) (v : IssueComment) : Bool :=
  match v.body with
  | some b => strIncludes b titleText
  | none => false

/-- The predicate of the `find` at line 193: the comment's body contains
the title marker. -/
def commitCommentMatches (titleText : String) (v : CommitComment) : Bool :=
  strIncludes v.body titleText

/-- `res.data.find((v) => v.body?.includes(titleText))` (line 165). -/
def findIssueComment (comments : List IssueComment) (titleText : String) :
    Option IssueComment :=
  comments.find? (issueCommentMatches titleText)

/-- `res.data.find((v) => v.body.includes(titleText))` (line 193). -/
def findCommitComment (comments : List CommitComment) (titleText : String) :
    Option CommitComment :=
  comments.find? (commitCommentMatches titleText)

/-- Effects of the comment-publication stage (lines 159-218). The
`buildComment` HTTP fetch happens while evaluating the `body:` argument,
so it precedes the create/update call. The `if (commentId)` guard is the
JavaScript truthiness test on `comment && comment.id`, which also sends
a found comment whose id is `0` down the create path. -/
def publishEffects (ctx : Context) (env : Env)
    (titleText deploymentUrl deploymentId : String) : List Effect :=
  let body := buildCommentBody titleText (jsOrNull env.inspectorUrl)
    deploymentUrl (commentSha ctx)
  if ctx.eventName = "pull_request" then
    Effect.listIssueComments ctx.issueNumber ::
      (match findIssueComment env.issueComments titleText with
       | some c =>
         if c.id ≠ 0 then
           [Effect.fetchUrl (apiUrl deploymentId),
            Effect.updateIssueComment c.id body]
         else
           [Effect.fetchUrl (apiUrl deploymentId),
            Effect.createIssueComment ctx.issueNumber body]
       | none =>
         [Effect.fetchUrl (apiUrl deploymentId),
          Effect.createIssueComment ctx.issueNumber body])
  else if ctx.eventName = "push" then
    Effect.listCommitComments ctx.sha ::
      (match findCommitComment env.commitComments titleText with
       | some c =>
         if c.id ≠ 0 then
           [Effect.fetchUrl (apiUrl deploymentId),
            Effect.updateCommitComment c.id body]
         else
           [Effect.fetchUrl (apiUrl deploymentId),
            Effect.createCommitComment ctx.sha body]
       | none =>
         [Effect.fetchUrl (apiUrl deploymentId),
          Effect.createCommitComment ctx.sha body])
  else
    [Effect.logInfo "github comment skipped."]

/-- One run of `main` (lines 71-222) against a context and an
environment: the effect trace in program order and the outcome after the
`main().catch((error) => core.setFailed(error.message))` wrapper.
Subprocess output is captured by concatenating the streamed chunks; the
streaming `core.info` pass-through is modelled as one `logInfo` per
captured stream. -/
def mainRun (inp : Inputs) (ctx : Context) (env : Env) : RunResult :=
  let e0 : List Effect :=
    [Effect.exportVar "VERCEL_ORG_ID" inp.vercelOrgId,
     Effect.exportVar "VERCEL_PROJECT_ID" inp.vercelProjectId]
  match branchNameOf ctx with
  | none => ⟨e0, .error "Branch name is undefined."⟩
  | some branchName =>
    let message := messageOf ctx
    let e1 := e0 ++
      [Effect.execCmd "npx" (deployArgs inp ctx branchName message),
       Effect.logInfo env.deployStdout, Effect.logInfo env.deployStderr]
    let deploymentUrl := env.deployStdout
    if deploymentUrl = "" then ⟨e1, .error "preview-url is undefined"⟩
    else
      let e2 := e1 ++
        [Effect.setOutput "preview-url" deploymentUrl,
         Effect.execCmd "npx" ["vercel", "inspect", deploymentUrl, "-t", inp.vercelToken],
         Effect.logInfo env.inspectStdout, Effect.logInfo env.inspectStderr]
      let parsed := vercelInspectParse env.inspectStderr
      if jsFalsy parsed.name then ⟨e2, .error "projectName is empty"⟩
      else if jsFalsy parsed.id then ⟨e2, .error "deploymentId is empty"⟩
      else
        let titleText := titleOf (parsed.name.getD "")
        ⟨e2 ++ publishEffects ctx env titleText deploymentUrl (parsed.id.getD ""),
         .ok ()⟩

/-- The run resolved a branch, captured non-empty deploy stdout, and the
inspect scrape yielded a truthy project name and deployment id — i.e.
control reaches the comment-publication stage. -/
def reachesPublication (ctx : Context) (env : Env) : Prop :=
  (branchNameOf ctx).isSome ∧ env.deployStdout ≠ "" ∧
    jsFalsy (vercelInspectParse env.inspectStderr).name = false ∧
    jsFalsy (vercelInspectParse env.inspectStderr).id = false

instance (ctx : Context) (env : Env) : Decidable (reachesPublication ctx env) := by
  unfold reachesPublication; infer_instance

/-- Is the effect a comment-creating API call? -/
def isCreateCall : Effect → Bool
  | .createIssueComment _ _ => true
  | .createCommitComment _ _ => true
  | _ => false

/-- Is the effect a comment-updating API call? -/
def isUpdateCall : Effect → Bool
  | .updateIssueComment _ _ => true
  | .updateCommitComment _ _ => true
  | _ => false

/-- Is the effect any comment API call (list, create or update)? -/
def isCommentApiCall : Effect → Bool
  | .listIssueComments _ => true
  | .createIssueComment _ _ => true
  | .updateIssueComment _ _ => true
  | .listCommitComments _ => true
  | .createCommitComment _ _ => true
  | .updateCommitComment _ _ => true
  | _ => false

/-- Is the effect an HTTP fetch? -/
def isFetchCall : Effect → Bool
  | .fetchUrl _ => true
  | _ => false

/-- Is the effect an invocation of the `vercel inspect` subcommand? -/
def isInspectCall : Effect → Bool
  | .execCmd _ ("vercel" :: "inspect" :: _) => true
  | _ => false



/-! ## Decomposition of `mainRun` -/

/-- The project name the run resolves from the inspect scrape (empty
when unresolved). -/
def resolvedName (env : Env) : String :=
  ((vercelInspectParse env.inspectStderr).name).getD ""

/-- The deployment id the run resolves from the inspect scrape (empty
when unresolved). -/
def resolvedId (env : Env) : String :=
  ((vercelInspectParse env.inspectStderr).id).getD ""

/-- The effects every run emits before the comment-publication stage,
once the deploy subprocess has produced non-empty stdout. -/
def preEffects (inp : Inputs) (ctx : Context) (env : Env) : List Effect :=
  [Effect.exportVar "VERCEL_ORG_ID" inp.vercelOrgId,
   Effect.exportVar "VERCEL_PROJECT_ID" inp.vercelProjectId,
   Effect.execCmd "npx" (deployArgs inp ctx ((branchNameOf ctx).getD "") (messageOf ctx)),
   Effect.logInfo env.deployStdout, Effect.logInfo env.deployStderr,
   Effect.setOutput "preview-url" env.deployStdout,
   Effect.execCmd "npx" ["vercel", "inspect", env.deployStdout, "-t", inp.vercelToken],
   Effect.logInfo env.inspectStdout, Effect.logInfo env.inspectStderr]

/-- Is the effect a `core.setOutput` call? -/
def isSetOutputCall : Effect → Bool
  | .setOutput _ _ => true
  | _ => false

/-! ## Concrete inputs for witnesses and counterexamples -/

/-- Concrete action inputs. -/
def wInp : Inputs :=
  { githubToken := "gh-token", vercelToken := "vc-token", vercelOrgId := "org-1",
    vercelProjectId := "prj-1", isProductionInput := "false" }

/-- A concrete push event context. -/
def wPushCtx : Context :=
  { payload_pull_request := none, payload_head_commit := some ⟨some "fix build"⟩,
    ref := "refs/heads/main", sha := "abc123", actor := "kik4",
    repoOwner := "kik4", repoRepo := "simple-vercel-deploy", repoId := 42,
    eventName := "push", issueNumber := 1 }

/-- A concrete environment whose commit-comment list holds one comment
containing the title marker for project `my-app`. -/
def wEnvMatch : Env :=
  { deployStdout := "https://my-app-abc.vercel.app", deployStderr := "",
    inspectStdout := "",
    inspectStderr := "  name  my-app\n  id  dpl_1",
    inspectorUrl := some "https://vercel.com/kik4/my-app/abc",
    issueComments := [],
    commitComments := [⟨7, "Deployment preview for _my-app_. old body"⟩] }

/-- A concrete environment whose deploy subprocess produced no stdout. -/
def wEnvEmpty : Env :=
  { deployStdout := "", deployStderr := "err", inspectStdout := "",
    inspectStderr := "", inspectorUrl := none,
    issueComments := [], commitComments := [] }

/-- Modelled from the spec's words, for comparison with the code (C3):
strip a leading `refs/heads/` prefix exactly once, leaving refs not
starting with `refs/heads/` unchanged. -/
def specStripLeadingRefsHeads (r : String) : String :=
  if isPfx "refs/heads/".data r.data then ⟨r.data.drop "refs/heads/".data.length⟩
  else r

/-- A push context whose ref contains `refs/heads/` other than as a
leading prefix (a tag named `refs/heads/v1`). -/
def ctxTagRef : Context :=
  { payload_pull_request := none, payload_head_commit := none,
    ref := "refs/tags/refs/heads/v1", sha := "abc123", actor := "kik4",
    repoOwner := "kik4", repoRepo := "simple-vercel-deploy", repoId := 42,
    eventName := "push", issueNumber := 1 }

/-- A pull-request context whose payload carries no title and no head
commit. -/
def ctxUntitledPR : Context :=
  { payload_pull_request := some { headRef := "feature-x", headSha := "def456", title := none },
    payload_head_commit := none, ref := "refs/pull/3/merge", sha := "abc123",
    actor := "kik4", repoOwner := "kik4", repoRepo := "simple-vercel-deploy",
    repoId := 42, eventName := "pull_request", issueNumber := 3 }

/-- A concrete environment whose inspect stderr contains neither an `id`
nor a `name` diagnostic line. -/
def wEnvNoName : Env :=
  { deployStdout := "https://x.vercel.app", deployStderr := "",
    inspectStdout := "", inspectStderr := "Error: not found",
    inspectorUrl := none, issueComments := [], commitComments := [] }

/-- A concrete context for a trigger event that is neither
`pull_request` nor `push`. -/
def wOtherCtx : Context :=
  { payload_pull_request := none, payload_head_commit := none,
    ref := "refs/heads/main", sha := "abc123", actor := "kik4",
    repoOwner := "kik4", repoRepo := "simple-vercel-deploy", repoId := 42,
    eventName := "workflow_dispatch", issueNumber := 1 }

/-! ## Basic lemmas about the string primitives -/

theorem data_append (a b : String) : (a ++ b).data = a.data ++ b.data := rfl

theorem mk_data (s : String) : String.mk s.data = s := by cases s; rfl

theorem isPfx_iff (a b : List Char) : isPfx a b = true ↔ a <+: b := by
  induction a generalizing b with
  | nil => simp [isPfx]
  | cons x xs ih =>
    cases b with
    | nil => simp [isPfx]
    | cons y ys => simp [isPfx, ih, List.cons_prefix_cons]

theorem isSubstr_iff (n l : List Char) : isSubstr n l = true ↔ n <:+: l := by
  induction l with
  | nil => simp [isSubstr, isPfx_iff]
  | cons c rest ih => simp [isSubstr, isPfx_iff, ih, List.infix_cons_iff]

theorem isPfx_self_append (l t : List Char) : isPfx l (l ++ t) = true :=
  (isPfx_iff l (l ++ t)).mpr (List.prefix_append l t)

theorem replaceFirstList_self_append (pat tl : List Char) (h : pat ≠ []) :
    replaceFirstList pat (pat ++ tl) = tl := by
  cases pat with
  | nil => exact absurd rfl h
  | cons p ps =>
    rw [List.cons_append, replaceFirstList, if_pos]
    · rw [← List.cons_append, List.drop_left]
    · rw [← List.cons_append]; exact isPfx_self_append (p :: ps) tl

theorem replaceFirstList_of_not_substr (pat l : List Char)
    (h : isSubstr pat l = false) : replaceFirstList pat l = l := by
  induction l with
  | nil => rfl
  | cons c rest ih =>
    rw [isSubstr, Bool.or_eq_false_iff] at h
    rw [replaceFirstList, if_neg (by simp [h.1]), ih h.2]

theorem mainRun_eq_of_reaches (inp : Inputs) (ctx : Context) (env : Env)
    (h : reachesPublication ctx env) :
    mainRun inp ctx env =
      ⟨preEffects inp ctx env ++
        publishEffects ctx env (titleOf (resolvedName env)) env.deployStdout (resolvedId env),
       .ok ()⟩ := by
  obtain ⟨h1, h2, h3, h4⟩ := h
  obtain ⟨b, hb⟩ := Option.isSome_iff_exists.mp h1
  simp only [mainRun, hb, preEffects, resolvedName, resolvedId]
  rw [if_neg h2, if_neg (by simp [h3]), if_neg (by simp [h4])]
  simp [hb]

/-! ## Trace-counting helpers -/

theorem preEffects_counts (inp : Inputs) (ctx : Context) (env : Env) :
    (preEffects inp ctx env).countP isCommentApiCall = 0 ∧
    (preEffects inp ctx env).countP isCreateCall = 0 ∧
    (preEffects inp ctx env).countP isUpdateCall = 0 ∧
    (preEffects inp ctx env).countP isFetchCall = 0 := by
  refine ⟨?_, ?_, ?_, ?_⟩ <;>
    simp [preEffects, List.countP_cons, isCommentApiCall, isCreateCall,
      isUpdateCall, isFetchCall]

theorem publishEffects_no_setOutput (ctx : Context) (env : Env) (t u d : String) :
    (publishEffects ctx env t u d).countP isSetOutputCall = 0 := by
  simp only [publishEffects]
  repeat' split
  all_goals simp [List.countP_cons, isSetOutputCall]

/-! ## Claims -/

/-- C1: in the comment-publication stage, when no existing comment on
the target thread (issue thread for `pull_request`, commit-comment list
for `push`) has a body containing the title marker, exactly one create
call and zero update calls are made; when some existing comment matches,
exactly one update call targeting the first matching comment's id and
zero create calls are made — so at most one comment per (thread, title
marker) pair is maintained. Comment ids are assumed non-zero, as GitHub
ids are (the code's `if (commentId)` truthiness test would treat a
zero id as absent). -/
theorem publication_single_comment (inp : Inputs) (ctx : Context) (env : Env)
    (hreach : reachesPublication ctx env)
    (hIssueIds : ∀ c ∈ env.issueComments, c.id ≠ 0)
    (hCommitIds : ∀ c ∈ env.commitComments, c.id ≠ 0) :
    (mainRun inp ctx env).outcome = .ok () ∧
    (ctx.eventName = "pull_request" →
      ((∀ c ∈ env.issueComments,
          issueCommentMatches (titleOf (resolvedName env)) c = false) →
        (mainRun inp ctx env).trace.countP isCreateCall = 1 ∧
        (mainRun inp ctx env).trace.countP isUpdateCall = 0) ∧
      (∀ c, findIssueComment env.issueComments (titleOf (resolvedName env)) = some c →
        (mainRun inp ctx env).trace.countP isUpdateCall = 1 ∧
        (mainRun inp ctx env).trace.countP isCreateCall = 0 ∧
        Effect.updateIssueComment c.id
          (buildCommentBody (titleOf (resolvedName env)) (jsOrNull env.inspectorUrl)
            env.deployStdout (commentSha ctx)) ∈ (mainRun inp ctx env).trace)) ∧
    (ctx.eventName = "push" →
      ((∀ c ∈ env.commitComments,
          commitCommentMatches (titleOf (resolvedName env)) c = false) →
        (mainRun inp ctx env).trace.countP isCreateCall = 1 ∧
        (mainRun inp ctx env).trace.countP isUpdateCall = 0) ∧
      (∀ c, findCommitComment env.commitComments (titleOf (resolvedName env)) = some c →
        (mainRun inp ctx env).trace.countP isUpdateCall = 1 ∧
        (mainRun inp ctx env).trace.countP isCreateCall = 0 ∧
        Effect.updateCommitComment c.id
          (buildCommentBody (titleOf (resolvedName env)) (jsOrNull env.inspectorUrl)
            env.deployStdout (commentSha ctx)) ∈ (mainRun inp ctx env).trace)) := by
  have hmain := mainRun_eq_of_reaches inp ctx env hreach
  have hp := preEffects_counts inp ctx env
  refine ⟨by rw [hmain], ?_, ?_⟩
  · intro hev
    constructor
    · intro hnone
      have hfind : findIssueComment env.issueComments (titleOf (resolvedName env)) = none := by
        rw [findIssueComment, List.find?_eq_none]
        intro c hc
        simp [hnone c hc]
      rw [hmain]
      simp [publishEffects, hev, hfind, List.countP_append, List.countP_cons,
        isCreateCall, isUpdateCall, hp.2.1, hp.2.2.1]
    · intro c hfind
      have hc0 : c.id ≠ 0 :=
        hIssueIds c (List.mem_of_find?_eq_some hfind)
      rw [hmain]
      refine ⟨?_, ?_, ?_⟩ <;>
        simp [publishEffects, hev, hfind, hc0, List.countP_append, List.countP_cons,
          isCreateCall, isUpdateCall, hp.2.1, hp.2.2.1]
  · intro hev
    constructor
    · intro hnone
      have hfind : findCommitComment env.commitComments (titleOf (resolvedName env)) = none := by
        rw [findCommitComment, List.find?_eq_none]
        intro c hc
        simp [hnone c hc]
      rw [hmain]
      simp [publishEffects, hev, hfind, List.countP_append, List.countP_cons,
        isCreateCall, isUpdateCall, hp.2.1, hp.2.2.1]
    · intro c hfind
      have hc0 : c.id ≠ 0 :=
        hCommitIds c (List.mem_of_find?_eq_some hfind)
      rw [hmain]
      refine ⟨?_, ?_, ?_⟩ <;>
        simp [publishEffects, hev, hfind, hc0, List.countP_append, List.countP_cons,
          isCreateCall, isUpdateCall, hp.2.1, hp.2.2.1]

/-- Witness for C1: a concrete push run with one matching commit comment
satisfies the hypotheses of `publication_single_comment`. -/
theorem publication_single_comment_witness :
    reachesPublication wPushCtx wEnvMatch ∧
    (∀ c ∈ wEnvMatch.issueComments, c.id ≠ 0) ∧
    (∀ c ∈ wEnvMatch.commitComments, c.id ≠ 0) ∧
    (mainRun wInp wPushCtx wEnvMatch).outcome = .ok () :=
  ⟨by decide, by decide, by decide,
    (publication_single_comment wInp wPushCtx wEnvMatch (by decide) (by decide)
      (by decide)).1⟩

/-- C2: when the deployment subprocess produces empty captured stdout
(on a run whose branch resolved, so the subprocess was reached), the run
fails with the `preview-url is undefined` error and the trace holds no
inspect subprocess invocation, no HTTP fetch, and no comment API call. -/
theorem empty_stdout_fails (inp : Inputs) (ctx : Context) (env : Env)
    (hb : (branchNameOf ctx).isSome) (hempty : env.deployStdout = "") :
    (mainRun inp ctx env).outcome = .error "preview-url is undefined" ∧
    (mainRun inp ctx env).trace.countP isInspectCall = 0 ∧
    (mainRun inp ctx env).trace.countP isFetchCall = 0 ∧
    (mainRun inp ctx env).trace.countP isCommentApiCall = 0 := by
  obtain ⟨b, hb'⟩ := Option.isSome_iff_exists.mp hb
  cases hprod : inp.isProduction <;>
    refine ⟨?_, ?_, ?_, ?_⟩ <;>
      simp [mainRun, hb', hempty, deployArgs, hprod, List.countP_cons,
        isInspectCall, isFetchCall, isCommentApiCall]

/-- Witness for C2: a concrete run with empty deploy stdout. -/
theorem empty_stdout_fails_witness :
    (branchNameOf wPushCtx).isSome ∧ wEnvEmpty.deployStdout = "" ∧
    (mainRun wInp wPushCtx wEnvEmpty).outcome = .error "preview-url is undefined" :=
  ⟨by decide, rfl, (empty_stdout_fails wInp wPushCtx wEnvEmpty (by decide) rfl).1⟩

/-- Counterexample for C3: on the push ref `refs/tags/refs/heads/v1`,
which contains `refs/heads/` but does not start with it, the code
removes the first occurrence anywhere (yielding `refs/tags/v1`), while
the claim says refs not starting with `refs/heads/` are left
unchanged. -/
theorem branch_claim_counterexample :
    branchNameOf ctxTagRef = some "refs/tags/v1" ∧
    specStripLeadingRefsHeads ctxTagRef.ref = "refs/tags/refs/heads/v1" ∧
    branchNameOf ctxTagRef ≠ some (specStripLeadingRefsHeads ctxTagRef.ref) := by
  decide

/-- C3 (amended): the branch name is the PR head ref verbatim when a
pull-request payload is present; else, for a non-empty ref, the ref with
the first occurrence of `refs/heads/` removed — in particular a leading
`refs/heads/` is stripped exactly once, and refs not containing
`refs/heads/` at all are left unchanged; else the run fails with the
branch-undefined error. -/
theorem branch_resolution_amended (ctx : Context) :
    (∀ pr, ctx.payload_pull_request = some pr → branchNameOf ctx = some pr.headRef) ∧
    (ctx.payload_pull_request = none → ∀ rest, ctx.ref = "refs/heads/" ++ rest →
      branchNameOf ctx = some rest) ∧
    (ctx.payload_pull_request = none → ctx.ref ≠ "" →
      strIncludes ctx.ref "refs/heads/" = false → branchNameOf ctx = some ctx.ref) ∧
    (ctx.payload_pull_request = none → ctx.ref = "" →
      ∀ inp env, (mainRun inp ctx env).outcome = .error "Branch name is undefined.") := by
  refine ⟨?_, ?_, ?_, ?_⟩
  · intro pr hpr
    simp [branchNameOf, hpr]
  · intro hpr rest href
    have hne : ctx.ref ≠ "" := by
      rw [href]
      intro h
      have := congrArg String.data h
      rw [data_append] at this
      simp at this
    simp only [branchNameOf, hpr, hne, ne_eq, not_false_iff, if_true]
    rw [href, replaceFirstStr, data_append,
      replaceFirstList_self_append _ _ (by decide), mk_data]
  · intro hpr hne hninc
    simp only [branchNameOf, hpr, hne, ne_eq, not_false_iff, if_true]
    rw [replaceFirstStr, replaceFirstList_of_not_substr _ _ hninc, mk_data]
  · intro hpr href inp env
    simp [mainRun, branchNameOf, hpr, href]

/-- Witness for C3 (amended): a leading `refs/heads/` is stripped. -/
theorem branch_resolution_witness :
    wPushCtx.payload_pull_request = none ∧ wPushCtx.ref = "refs/heads/" ++ "main" ∧
    branchNameOf wPushCtx = some "main" :=
  ⟨rfl, by decide, (branch_resolution_amended wPushCtx).2.1 rfl "main" (by decide)⟩

/-- Counterexample for C4: on a pull-request event whose payload carries
no title and where no head commit is available, the code takes the
(undefined) title field — interpolated as `undefined` into the commit
message tag — and does not fall back to `Deploy <sha>`. -/
theorem message_claim_counterexample :
    messageOf ctxUntitledPR = none ∧
    messageOf ctxUntitledPR ≠ some ("Deploy " ++ ctxUntitledPR.sha) ∧
    "githubCommitMessage=undefined" ∈
      deployArgs wInp ctxUntitledPR "feature-x" (messageOf ctxUntitledPR) := by
  decide

/-- C4 (amended): the trigger message is the pull-request payload's
title field whenever a pull-request payload is present — even when the
title is absent, in which case the message is the undefined value — else
the head commit's message field when a head commit is present, else the
synthesized `Deploy <sha>`. -/
theorem message_resolution_amended (ctx : Context) :
    (∀ pr, ctx.payload_pull_request = some pr → messageOf ctx = pr.title) ∧
    (ctx.payload_pull_request = none → ∀ hc, ctx.payload_head_commit = some hc →
      messageOf ctx = hc.message) ∧
    (ctx.payload_pull_request = none → ctx.payload_head_commit = none →
      messageOf ctx = some ("Deploy " ++ ctx.sha)) := by
  refine ⟨?_, ?_, ?_⟩ <;> intros <;> simp [messageOf, *]

/-- Witness for C4 (amended): the head-commit message branch. -/
theorem message_resolution_witness :
    wPushCtx.payload_pull_request = none ∧
    wPushCtx.payload_head_commit = some ⟨some "fix build"⟩ ∧
    messageOf wPushCtx = some "fix build" :=
  ⟨rfl, rfl,
    (message_resolution_amended wPushCtx).2.1 rfl ⟨some "fix build"⟩ rfl⟩

theorem mainRun_trace_eq (inp : Inputs) (ctx : Context) (env : Env)
    (hb : (branchNameOf ctx).isSome) (hne : env.deployStdout ≠ "") :
    (mainRun inp ctx env).trace = preEffects inp ctx env ++
      (if jsFalsy (vercelInspectParse env.inspectStderr).name then []
       else if jsFalsy (vercelInspectParse env.inspectStderr).id then []
       else publishEffects ctx env (titleOf (resolvedName env)) env.deployStdout
         (resolvedId env)) := by
  obtain ⟨b, hb'⟩ := Option.isSome_iff_exists.mp hb
  by_cases h3 : jsFalsy (vercelInspectParse env.inspectStderr).name <;>
    by_cases h4 : jsFalsy (vercelInspectParse env.inspectStderr).id <;>
      simp [mainRun, hb', hne, h3, h4, preEffects, resolvedName, resolvedId]

/-- C5: on every run that invokes the deploy subprocess, the deployment
URL equals the captured stdout of the deployment tool: when stdout is
non-empty it is exposed via `setOutput` under `preview-url` and handed
verbatim to the inspection stage, every `setOutput` effect of the run
carries exactly that pair, and when stdout is empty the run fails (and
nothing is output). -/
theorem preview_url_from_stdout (inp : Inputs) (ctx : Context) (env : Env)
    (hb : (branchNameOf ctx).isSome) :
    (env.deployStdout ≠ "" →
      Effect.setOutput "preview-url" env.deployStdout ∈ (mainRun inp ctx env).trace ∧
      Effect.execCmd "npx" ["vercel", "inspect", env.deployStdout, "-t", inp.vercelToken]
        ∈ (mainRun inp ctx env).trace ∧
      (∀ n v, Effect.setOutput n v ∈ (mainRun inp ctx env).trace →
        n = "preview-url" ∧ v = env.deployStdout)) ∧
    (env.deployStdout = "" →
      (mainRun inp ctx env).outcome = .error "preview-url is undefined" ∧
      ∀ n v, Effect.setOutput n v ∉ (mainRun inp ctx env).trace) := by
  constructor
  · intro hne
    have htr := mainRun_trace_eq inp ctx env hb hne
    refine ⟨?_, ?_, ?_⟩
    · rw [htr]
      simp [preEffects]
    · rw [htr]
      simp [preEffects]
    · intro n v hmem
      rw [htr] at hmem
      rcases List.mem_append.mp hmem with hpre | htail
      · simpa [preEffects] using hpre
      · exfalso
        have hno := publishEffects_no_setOutput ctx env (titleOf (resolvedName env))
          env.deployStdout (resolvedId env)
        split at htail
        · simp at htail
        · split at htail
          · simp at htail
          · have := List.countP_eq_zero.mp hno _ htail
            simp [isSetOutputCall] at this
  · intro hempty
    obtain ⟨b, hb'⟩ := Option.isSome_iff_exists.mp hb
    constructor
    · simp [mainRun, hb', hempty]
    · intro n v hmem
      simp [mainRun, hb', hempty] at hmem

/-- Witness for C5: the non-empty-stdout case of a concrete run. -/
theorem preview_url_from_stdout_witness :
    (branchNameOf wPushCtx).isSome ∧ wEnvMatch.deployStdout ≠ "" ∧
    Effect.setOutput "preview-url" wEnvMatch.deployStdout
      ∈ (mainRun wInp wPushCtx wEnvMatch).trace :=
  ⟨by decide, by decide,
    ((preview_url_from_stdout wInp wPushCtx wEnvMatch (by decide)).1 (by decide)).1⟩

/-- C6: the CLI-scrape inspection variant takes the deployment id and
project name as the first multiline-mode matches of `^\s+id\s+(.+)$` and
`^\s+name\s+(.+)$` against the inspect subcommand's stderr (a field with
no matching line is null), and the run fails fatally with `projectName
is empty` when the name is unresolved, and with `deploymentId is empty`
when the name resolved but the id is unresolved. -/
theorem inspect_scrape_resolution (inp : Inputs) (ctx : Context) (env : Env)
    (hb : (branchNameOf ctx).isSome) (hne : env.deployStdout ≠ "") :
    ((vercelInspectParse env.inspectStderr).id = matchFirst "id" env.inspectStderr ∧
     (vercelInspectParse env.inspectStderr).name = matchFirst "name" env.inspectStderr) ∧
    (∀ key, (∀ l ∈ linesOf env.inspectStderr, lineCapture key l = none) →
      matchFirst key env.inspectStderr = none) ∧
    (jsFalsy (vercelInspectParse env.inspectStderr).name →
      (mainRun inp ctx env).outcome = .error "projectName is empty") ∧
    (¬ jsFalsy (vercelInspectParse env.inspectStderr).name →
      jsFalsy (vercelInspectParse env.inspectStderr).id →
      (mainRun inp ctx env).outcome = .error "deploymentId is empty") := by
  obtain ⟨b, hb'⟩ := Option.isSome_iff_exists.mp hb
  refine ⟨⟨rfl, rfl⟩, ?_, ?_, ?_⟩
  · intro key h
    rw [matchFirst, List.findSome?_eq_none_iff]
    exact h
  · intro h3
    simp [mainRun, hb', hne, h3]
  · intro h3 h4
    simp [mainRun, hb', hne, h3, h4]

/-- Witness for C6: a concrete run whose inspect stderr matches neither
pattern fails with the project-name error. -/
theorem inspect_scrape_resolution_witness :
    (branchNameOf wPushCtx).isSome ∧ wEnvNoName.deployStdout ≠ "" ∧
    (mainRun wInp wPushCtx wEnvNoName).outcome = .error "projectName is empty" :=
  ⟨by decide, by decide,
    (inspect_scrape_resolution wInp wPushCtx wEnvNoName (by decide)
      (by decide)).2.2.1 (by decide)⟩

theorem append_ne_prod (p x : String) (h : p.data.head? = some 'g') :
    p ++ x ≠ "--prod" := by
  intro heq
  have hd : (p ++ x).data.head? = ("--prod" : String).data.head? := by rw [heq]
  rw [data_append] at hd
  have hpr : ("--prod" : String).data.head? = some '-' := rfl
  rw [hpr] at hd
  cases hp : p.data with
  | nil => rw [hp] at h; exact Option.noConfusion h
  | cons c t =>
    rw [hp] at h hd
    simp at h hd
    rw [h] at hd
    exact absurd hd (by decide)

/-- C7: the deploy CLI's argument list is exactly the order-sensitive
template — the production flag included precisely when the
`is-production` input is the string `"true"`, then the auth token flag,
then the `-m` metadata tags in order: commit author name, commit
message, org, ref, repo, repo id, sha, the literal deployment marker,
then the duplicate-key aliases org, repo, repo id, and finally the
commit author login — and `--prod` occurs in the list iff the
production input is set (assuming the auth token itself is not the
string `--prod`). -/
theorem deploy_args_template (inp : Inputs) (ctx : Context) (b : String)
    (m : Option String) (htok : inp.vercelToken ≠ "--prod") :
    deployArgs inp ctx b m =
      ["vercel"] ++ (if inp.isProductionInput = "true" then ["--prod"] else []) ++
      ["-t", inp.vercelToken,
       "-m", "githubCommitAuthorName=" ++ ctx.actor,
       "-m", "githubCommitMessage=" ++ jsShow m,
       "-m", "githubCommitOrg=" ++ ctx.repoOwner,
       "-m", "githubCommitRef=" ++ b,
       "-m", "githubCommitRepo=" ++ ctx.repoRepo,
       "-m", "githubCommitRepoId=" ++ toString ctx.repoId,
       "-m", "githubCommitSha=" ++ ctx.sha,
       "-m", "githubDeployment=1",
       "-m", "githubOrg=" ++ ctx.repoOwner,
       "-m", "githubRepo=" ++ ctx.repoRepo,
       "-m", "githubRepoId=" ++ toString ctx.repoId,
       "-m", "githubCommitAuthorLogin=" ++ ctx.actor] ∧
    ("--prod" ∈ deployArgs inp ctx b m ↔ inp.isProductionInput = "true") := by
  have h1 : ∀ x : String, ¬ ("--prod" = "githubCommitAuthorName=" ++ x) :=
    fun x h => append_ne_prod "githubCommitAuthorName=" x rfl h.symm
  have h2 : ∀ x : String, ¬ ("--prod" = "githubCommitMessage=" ++ x) :=
    fun x h => append_ne_prod "githubCommitMessage=" x rfl h.symm
  have h3 : ∀ x : String, ¬ ("--prod" = "githubCommitOrg=" ++ x) :=
    fun x h => append_ne_prod "githubCommitOrg=" x rfl h.symm
  have h4 : ∀ x : String, ¬ ("--prod" = "githubCommitRef=" ++ x) :=
    fun x h => append_ne_prod "githubCommitRef=" x rfl h.symm
  have h5 : ∀ x : String, ¬ ("--prod" = "githubCommitRepo=" ++ x) :=
    fun x h => append_ne_prod "githubCommitRepo=" x rfl h.symm
  have h6 : ∀ x : String, ¬ ("--prod" = "githubCommitRepoId=" ++ x) :=
    fun x h => append_ne_prod "githubCommitRepoId=" x rfl h.symm
  have h7 : ∀ x : String, ¬ ("--prod" = "githubCommitSha=" ++ x) :=
    fun x h => append_ne_prod "githubCommitSha=" x rfl h.symm
  have h8 : ∀ x : String, ¬ ("--prod" = "githubOrg=" ++ x) :=
    fun x h => append_ne_prod "githubOrg=" x rfl h.symm
  have h9 : ∀ x : String, ¬ ("--prod" = "githubRepo=" ++ x) :=
    fun x h => append_ne_prod "githubRepo=" x rfl h.symm
  have h10 : ∀ x : String, ¬ ("--prod" = "githubRepoId=" ++ x) :=
    fun x h => append_ne_prod "githubRepoId=" x rfl h.symm
  have h11 : ∀ x : String, ¬ ("--prod" = "githubCommitAuthorLogin=" ++ x) :=
    fun x h => append_ne_prod "githubCommitAuthorLogin=" x rfl h.symm
  have htok' : "--prod" ≠ inp.vercelToken := Ne.symm htok
  by_cases hp : inp.isProductionInput = "true" <;>
    constructor <;>
      simp [deployArgs, Inputs.isProduction, hp, h1, h2, h3, h4, h5, h6, h7, h8,
        h9, h10, h11, htok']

/-- Witness for C7 at a concrete input. -/
theorem deploy_args_template_witness :
    wInp.vercelToken ≠ "--prod" ∧
    ("--prod" ∈ deployArgs wInp wPushCtx "main" (some "fix build") ↔
      wInp.isProductionInput = "true") :=
  ⟨by decide,
    (deploy_args_template wInp wPushCtx "main" (some "fix build") (by decide)).2⟩

theorem str_append_assoc (a b c : String) : a ++ b ++ c = a ++ (b ++ c) := by
  cases a
  cases b
  cases c
  exact congrArg String.mk (List.append_assoc _ _ _)

theorem infix_extend_left (n x m : List Char) (h : n <:+: m) : n <:+: x ++ m :=
  h.trans (List.IsSuffix.isInfix (List.suffix_append x m))

theorem infix_extend_right (n m y : List Char) (h : n <:+: m) : n <:+: m ++ y :=
  h.trans (List.IsPrefix.isInfix (List.prefix_append m y))

/-- C8: when the trigger event is neither `pull_request` nor `push` and
the run reaches the publication stage, no comment API call is made, a
skip notice is logged, and the run reports success. -/
theorem other_event_skips (inp : Inputs) (ctx : Context) (env : Env)
    (hreach : reachesPublication ctx env)
    (hpr : ctx.eventName ≠ "pull_request") (hpush : ctx.eventName ≠ "push") :
    (mainRun inp ctx env).outcome = .ok () ∧
    Effect.logInfo "github comment skipped." ∈ (mainRun inp ctx env).trace ∧
    (mainRun inp ctx env).trace.countP isCommentApiCall = 0 := by
  have hmain := mainRun_eq_of_reaches inp ctx env hreach
  have hp := preEffects_counts inp ctx env
  rw [hmain]
  refine ⟨rfl, ?_, ?_⟩
  · simp [publishEffects, hpr, hpush]
  · simp [publishEffects, hpr, hpush, List.countP_append, List.countP_cons,
      isCommentApiCall, hp.1]

/-- Witness for C8: a concrete `workflow_dispatch` run. -/
theorem other_event_skips_witness :
    reachesPublication wOtherCtx wEnvMatch ∧
    wOtherCtx.eventName ≠ "pull_request" ∧ wOtherCtx.eventName ≠ "push" ∧
    (mainRun wInp wOtherCtx wEnvMatch).trace.countP isCommentApiCall = 0 :=
  ⟨by decide, by decide, by decide,
    (other_event_skips wInp wOtherCtx wEnvMatch (by decide) (by decide)
      (by decide)).2.2⟩

/-- C9: the title marker is a pure function of the project name,
`"Deployment preview for _" ++ p ++ "_."`, and in particular
`titleOf "my-app" = "Deployment preview for _my-app_."`. -/
theorem title_marker_pure (p : String) :
    titleOf p = "Deployment preview for _" ++ p ++ "_." ∧
    titleOf "my-app" = "Deployment preview for _my-app_." :=
  ⟨rfl, rfl⟩

/-- C10: when the deployment-status response's `inspectorUrl` field is
absent or empty, comment composition still succeeds: the Inspect line of
the body carries the literal text `null`, and the rest of the body
(title marker, deployment URL, commit SHA) is composed normally. -/
theorem comment_null_inspector (titleText deploymentUrl sha : String)
    (o : Option String) (h : o = none ∨ o = some "") :
    jsOrNull o = "null" ∧
    buildCommentBody titleText (jsOrNull o) deploymentUrl sha =
      titleText ++ "\n\n🔍 Inspect: null\n✅ Preview: " ++ deploymentUrl ++
        "\n\nBuilt with commit " ++ sha ++ "." ∧
    strIncludes (buildCommentBody titleText (jsOrNull o) deploymentUrl sha)
      "null" = true := by
  have hnull : jsOrNull o = "null" := by
    rcases h with h | h <;> simp [jsOrNull, h]
  have hbody : buildCommentBody titleText (jsOrNull o) deploymentUrl sha =
      titleText ++ "\n\n🔍 Inspect: null\n✅ Preview: " ++ deploymentUrl ++
        "\n\nBuilt with commit " ++ sha ++ "." := by
    rw [buildCommentBody, hnull,
      str_append_assoc (titleText ++ "\n\n🔍 Inspect: ") "null" "\n✅ Preview: ",
      str_append_assoc titleText "\n\n🔍 Inspect: " ("null" ++ "\n✅ Preview: "),
      show ("\n\n🔍 Inspect: " ++ ("null" ++ "\n✅ Preview: ") : String) =
        "\n\n🔍 Inspect: null\n✅ Preview: " from rfl]
  refine ⟨hnull, hbody, ?_⟩
  rw [hbody, strIncludes, isSubstr_iff]
  simp only [data_append, List.append_assoc]
  exact infix_extend_left _ _ _ (infix_extend_right _ _ _
    ((isSubstr_iff _ _).mp (by decide)))

/-- Witness for C10: the absent-field case. -/
theorem comment_null_inspector_witness :
    ((none : Option String) = none ∨ (none : Option String) = some "") ∧
    jsOrNull (none : Option String) = "null" :=
  ⟨Or.inl rfl, (comment_null_inspector "T" "U" "S" none (Or.inl rfl)).1⟩

end VercelDeploy
